import Mathlib

/-!
Shallow embedding of the iframe-bridge protocol (host dispatcher in
src/host.ts, guest surface linkHost in src/iframe.ts, shared constants in
src/common.ts), together with theorems settling the frozen claims about it.

Modelling conventions:
  - a JavaScript window handle is a Nat;
  - an optional / possibly-absent field is an Option;
  - JavaScript truthiness of a string-valued field: absent and the empty
    string are falsy, every other string is truthy;
  - a handler is a function from the argument list to an outcome that
    records whether it returned a plain value, returned a thenable that
    resolves or rejects, or threw synchronously;
  - timers and promise resolution are modelled by explicit step functions
    (the code is single-threaded and event-driven, per the spec).
-/

/-- Message values carried in args, res and err fields. -/
inductive JsVal where
  | undef : JsVal
  | str (s : String) : JsVal
  | num (n : Nat) : JsVal
  | boolV (b : Bool) : JsVal
deriving DecidableEq

/-- The Bridge enum of src/common.ts: message types, internal method
names and error codes. -/
def Bridge.EVENT : String := "__bridge_event__"

def Bridge.RESPONSE : String := "__bridge_response__"

def Bridge.CALL_METHOD : String := "__bridge_call_method__"

def Bridge.ENUM_METHODS : String := "__bridge_enum_methods__"

def Bridge.CALL_METHOD_FAILED : String := "__call_method_failed__"

def Bridge.NO_METHOD : String := "__no_method__"

def Bridge.TIME_OUT : String := "__time_out__"

/-- A posted message (the data field of a message event). Fields that a
given message kind does not carry are none / undef. -/
structure Msg where
  type : Option String
  mid : Option String
  method : Option String
  args : Option (List JsVal)
  res : JsVal
  err : Option String
  scope : Option String
  event : Option String
deriving DecidableEq

/-- JavaScript truthiness of an optional string: undefined and the empty
string are falsy. -/
def truthyStr : Option String → Bool
  | none => false
  | some s => s != ""

/-- The diffScope predicate built identically on both endpoints:
  const diffScope = scope ? ((s) => (s !== scope)) : Boolean;
cfg is the endpoint's configured scope option, s the message's scope. -/
def diffScope (cfg : Option String) (s : Option String) : Bool :=
  if truthyStr cfg then s != cfg else truthyStr s

/-- Outcome of invoking a registered handler: plain return, a thenable
that resolves, a thenable that rejects, or a synchronous throw. -/
inductive HRes where
  | ret (v : JsVal) : HRes
  | thenRet (v : JsVal) : HRes
  | thenErr (e : JsVal) : HRes
  | thrown (e : JsVal) : HRes
deriving DecidableEq

/-- A host-side method handler. -/
def Handler : Type := List JsVal → HRes

/-- onCall of src/host.ts. A missing handler yields [undefined, NO_METHOD];
a handler outcome that throws or rejects makes the async function's
promise reject (Except.error); otherwise the settled pair [res, err]. -/
def onCall (fn : Option Handler) (args : List JsVal) :
    Except JsVal (JsVal × Option String) :=
  match fn with
  | none => Except.ok (JsVal.undef, some Bridge.NO_METHOD)
  | some f =>
    match f args with
    | HRes.ret v => Except.ok (v, none)
    | HRes.thenRet v => Except.ok (v, none)
    | HRes.thenErr e => Except.error e
    | HRes.thrown e => Except.error e

/-- The RESPONSE the host posts back for a CALL_METHOD message: the then
branch posts mid, res and err as settled by onCall; the catch branch posts
err = CALL_METHOD_FAILED with no result. -/
def callResponse (cfg : Option String) (mid : Option String)
    (fn : Option Handler) (args : List JsVal) : Msg :=
  match onCall fn args with
  | Except.ok (r, e) =>
    { type := some Bridge.RESPONSE, mid := mid, method := none,
      args := none, res := r, err := e, scope := cfg, event := none }
  | Except.error _ =>
    { type := some Bridge.RESPONSE, mid := mid, method := none,
      args := none, res := JsVal.undef,
      err := some Bridge.CALL_METHOD_FAILED, scope := cfg, event := none }

/-- Map.set on an insertion-ordered association list: replace in place
when the key exists, append otherwise (the frames map of src/host.ts). -/
def upsert (m : List (String × Nat)) (k : String) (v : Nat) :
    List (String × Nat) :=
  if m.any (fun p => p.1 = k) then
    m.map (fun p => if p.1 = k then (k, v) else p)
  else m ++ [(k, v)]

/-- Host dispatcher state: the frames peer table (origin to window
handle, insertion ordered) and the method registry. -/
structure HostState where
  frames : List (String × Nat)
  methods : String → Option Handler

/-- A message event as the host listener destructures it: source window
(absent when null), origin string (empty is falsy) and the data payload. -/
structure MsgEvent where
  source : Option Nat
  origin : String
  data : Msg

/-- A postMessage performed by the host: target window handle, target
origin, payload. -/
def Outgoing : Type := Nat × String × Msg

/-- The host message listener of src/host.ts initProxy:
  if (diffScope(data.scope)) return;
  if (!source || !origin) return;
  frames.set(origin, frame);
  if (type === Bridge.CALL_METHOD && mid) respond via onCall.
Property lookup methods[method] with an undefined method name uses the
string key "undefined", as JavaScript coerces the key. -/
def hostStep (cfg : Option String) (st : HostState) (ev : MsgEvent) :
    HostState × List Outgoing :=
  if diffScope cfg ev.data.scope then (st, [])
  else
    match ev.source with
    | none => (st, [])
    | some frame =>
      if ev.origin = "" then (st, [])
      else
        let st1 : HostState :=
          { st with frames := upsert st.frames ev.origin frame }
        if ev.data.type = some Bridge.CALL_METHOD then
          if truthyStr ev.data.mid then
            (st1, [(frame, ev.origin,
              callResponse cfg ev.data.mid
                (st.methods (ev.data.method.getD "undefined"))
                (ev.data.args.getD []))])
          else (st1, [])
        else (st1, [])

/-- Guest surface state: the pending-request table keyed by correlation
id (true = pending) and the CapabilitySet (none until first populated). -/
structure GuestState where
  requests : String → Bool
  exist_methods : Option (List String)

/-- An observable completion of a pending request. -/
inductive Completion where
  | resolved (v : JsVal) : Completion
  | rejected (e : String) : Completion
deriving DecidableEq

/-- Observable effect of one guest step: a pending request completed, or
an EVENT was dispatched to the listeners of a name with given args. -/
inductive GuestEffect where
  | completed (mid : String) (c : Completion) : GuestEffect
  | dispatched (event : String) (args : List JsVal) : GuestEffect
deriving DecidableEq

/-- done of src/iframe.ts linkHost: no-op when the correlation id has no
pending entry; otherwise delete the entry, then reject with the (truthy)
err string or resolve with res. -/
def doneStep (st : GuestState) (mid : String) (res : JsVal)
    (err : Option String) : GuestState × List GuestEffect :=
  if st.requests mid then
    ({ st with requests := fun m => if m = mid then false else st.requests m },
     [GuestEffect.completed mid
        (if truthyStr err then Completion.rejected (err.getD "")
         else Completion.resolved res)])
  else (st, [])

/-- The timeout scheduled by a call stub firing:
  setTimeout(() => done(mid, undefined, 'timeout'), 5000). -/
def timeoutFire (st : GuestState) (mid : String) :
    GuestState × List GuestEffect :=
  doneStep st mid JsVal.undef (some "timeout")

/-- The capability filter of methodGetter, line
  if (exist_methods && !exist_methods.has(method)) return;
true iff accessing the name materializes (or returns) a callable stub. -/
def methodAccess (em : Option (List String)) (m : String) : Bool :=
  match em with
  | none => true
  | some l => decide (m ∈ l)

/-- Invoking methods.m(args) with a fresh correlation id mid: when the
capability filter admits m, post a CALL_METHOD message (tagged with the
configured scope) toward the parent and record the pending request;
when the filter excludes m the access yields undefined, so nothing is
posted and no request is created. -/
def guestCall (cfg : Option String) (st : GuestState) (m : String)
    (args : List JsVal) (mid : String) : GuestState × List Msg :=
  if methodAccess st.exist_methods m then
    ({ st with requests := fun x => if x = mid then true else st.requests x },
     [{ type := some Bridge.CALL_METHOD, mid := some mid, method := some m,
        args := some args, res := JsVal.undef, err := none, scope := cfg,
        event := none }])
  else (st, [])

/-- A capability update payload as received by setMethods: anything that
is not an array, or an array of method names. -/
inductive CapUpdate where
  | notArray : CapUpdate
  | arr (l : List String) : CapUpdate
deriving DecidableEq

/-- setMethods of src/iframe.ts:
  if (!Array.isArray(list) || list.length === 0) return;
  exist_methods = new Set(list);
The set is represented by its generating list (membership coincides). -/
def setMethods (em : Option (List String)) (u : CapUpdate) :
    Option (List String) :=
  match u with
  | CapUpdate.notArray => em
  | CapUpdate.arr l => if l.length = 0 then em else some l

/-- A message event as the guest listener destructures it: the source
window (absent when null) and the data payload; the guest ignores the
event's origin field. -/
structure GMsgEvent where
  source : Option Nat
  data : Msg

/-- The guest message listener of src/iframe.ts linkHost, embedded as the
source is written:
  if (!diffScope(data.scope)) return;
  if (!source || source !== win.parent) return;
  switch (type) with case RESPONSE then done(mid, res, err),
  case EVENT then events[event].trigger(args);
the destructuring defaults mid and event to the empty string and args to
the empty list. Note the first guard negates diffScope. -/
def guestStep (cfg : Option String) (parent : Nat) (st : GuestState)
    (ev : GMsgEvent) : GuestState × List GuestEffect :=
  if !(diffScope cfg ev.data.scope) then (st, [])
  else
    match ev.source with
    | none => (st, [])
    | some s =>
      if s ≠ parent then (st, [])
      else
        if ev.data.type = some Bridge.RESPONSE then
          doneStep st (ev.data.mid.getD "") ev.data.res ev.data.err
        else if ev.data.type = some Bridge.EVENT then
          (st, [GuestEffect.dispatched (ev.data.event.getD "")
                  (ev.data.args.getD [])])
        else (st, [])

/-- What a listener callback does to the listener set during dispatch:
nothing, add a listener, or remove one (by identity). -/
inductive LAct where
  | nop : LAct
  | addL (j : Nat) : LAct
  | removeL (j : Nat) : LAct
deriving DecidableEq

/-- Live iteration of events[name].trigger, i.e. Set.forEach over the
listener set: elements are visited in insertion order; an element added
during iteration (not already in the set) is appended and will be
visited; an element removed before being visited is skipped. past holds
the already-visited elements, todo the rest; the result is the list of
invoked listeners in call order. fuel bounds the walk (a callback chain
that keeps adding fresh listeners iterates unboundedly in JavaScript). -/
def forEachLive (eff : Nat → LAct) : Nat → List Nat → List Nat → List Nat
  | 0, _, _ => []
  | _ + 1, _, [] => []
  | fuel + 1, past, j :: rest =>
    let past1 := past ++ [j]
    let rest1 :=
      match eff j with
      | LAct.nop => rest
      | LAct.addL k => if k ∈ past1 ∨ k ∈ rest then rest else rest ++ [k]
      | LAct.removeL k => rest.erase k
    j :: forEachLive eff fuel past1 rest1

/-- One trigger of the listeners registered for an event name, each
invoked with the message's args:
  trigger: (args) => list.forEach(fn => fn.apply(null, args)). -/
def triggerCalls (eff : Nat → LAct) (fuel : Nat) (listeners : List Nat)
    (args : List JsVal) : List (Nat × List JsVal) :=
  (forEachLive eff fuel [] listeners).map (fun j => (j, args))

/-- A completion attempt against the pending-request table: an inbound
RESPONSE for a correlation id, or that id's timeout firing. -/
inductive Attempt where
  | response (mid : String) (res : JsVal) (err : Option String) : Attempt
  | timeout (mid : String) : Attempt

/-- The correlation id an attempt targets. -/
def attemptMid : Attempt → String
  | Attempt.response mid _ _ => mid
  | Attempt.timeout mid => mid

/-- Apply one completion attempt through done. -/
def applyAttempt (st : GuestState) (a : Attempt) :
    GuestState × List GuestEffect :=
  match a with
  | Attempt.response mid res err => doneStep st mid res err
  | Attempt.timeout mid => timeoutFire st mid

/-- Run a sequence of completion attempts, collecting effects in order. -/
def runAttempts (st : GuestState) : List Attempt →
    GuestState × List GuestEffect
  | [] => (st, [])
  | a :: rest =>
    let p := applyAttempt st a
    let q := runAttempts p.1 rest
    (q.1, p.2 ++ q.2)

/-- The completion an attempt produces when it finds a pending entry. -/
def outcomeOf : Attempt → Completion
  | Attempt.response _ res err =>
    if truthyStr err then Completion.rejected (err.getD "")
    else Completion.resolved res
  | Attempt.timeout _ => Completion.rejected "timeout"

/-- The completions among a list of effects that concern a given id. -/
def completionsFor (mid : String) (effs : List GuestEffect) :
    List GuestEffect :=
  effs.filter (fun e =>
    match e with
    | GuestEffect.completed m _ => m = mid
    | GuestEffect.dispatched _ _ => false)

/-- A message with every field absent, to be updated per test case. -/
def baseMsg : Msg :=
  { type := none, mid := none, method := none, args := none,
    res := JsVal.undef, err := none, scope := none, event := none }

/-- A guest state with one pending request m1 and no CapabilitySet yet. -/
def guestW : GuestState :=
  { requests := fun m => m == "m1", exist_methods := none }

/-- A host state with no known peers and one registered method add. -/
def hostW : HostState :=
  { frames := [],
    methods := fun m =>
      if m = "add" then some (fun _ => HRes.ret (JsVal.num 5)) else none }

/-- Claim C8: a capability update that is not an array or is empty leaves
the CapabilitySet exactly as it was; a non-empty update replaces it
wholesale, independently of the previous contents (last valid update
wins, never merged). -/
theorem c8_set_methods_wholesale (em em' : Option (List String))
    (l : List String) :
    setMethods em CapUpdate.notArray = em ∧
    setMethods em (CapUpdate.arr []) = em ∧
    (l ≠ [] →
      setMethods em (CapUpdate.arr l) = some l ∧
      setMethods em (CapUpdate.arr l) = setMethods em' (CapUpdate.arr l)) := by
  refine ⟨rfl, rfl, fun h => ?_⟩
  have hl : l.length ≠ 0 := by
    simpa using fun hc => h (List.length_eq_zero.mp hc)
  constructor <;> simp [setMethods, hl]

/-- Witness for C8 at a concrete update replacing a previous set. -/
theorem c8_set_methods_wholesale_witness :
    setMethods (some ["a"]) (CapUpdate.arr ["x", "y"]) = some ["x", "y"] :=
  ((c8_set_methods_wholesale (some ["a"]) none ["x", "y"]).2.2
    (by decide)).1

/-- Claim C4: with a populated CapabilitySet that excludes m, accessing m
yields no callable and invoking the surface for m posts nothing and
creates no pending request; with the CapabilitySet never populated,
every name materializes a callable stub, and invoking it posts the
CALL message. -/
theorem c4_capability_filter (cfg : Option String) (st : GuestState)
    (m : String) (l : List String) (args : List JsVal) (mid : String) :
    (st.exist_methods = some l → m ∉ l →
      methodAccess st.exist_methods m = false ∧
      guestCall cfg st m args mid = (st, [])) ∧
    (st.exist_methods = none →
      methodAccess st.exist_methods m = true ∧
      (guestCall cfg st m args mid).2 =
        [{ type := some Bridge.CALL_METHOD, mid := some mid,
           method := some m, args := some args, res := JsVal.undef,
           err := none, scope := cfg, event := none }]) := by
  constructor
  · intro he hm
    have ha : methodAccess st.exist_methods m = false := by
      simp [methodAccess, he, hm]
    exact ⟨ha, by simp [guestCall, ha]⟩
  · intro he
    have ha : methodAccess st.exist_methods m = true := by
      simp [methodAccess, he]
    exact ⟨ha, by simp [guestCall, ha]⟩

/-- Witness for C4: a populated CapabilitySet lacking b makes the call
surface emit nothing for b. -/
theorem c4_capability_filter_witness :
    guestCall none
      { requests := fun _ => false, exist_methods := some ["a"] }
      "b" [] "m9" =
      ({ requests := fun _ => false, exist_methods := some ["a"] }, []) :=
  ((c4_capability_filter none
      { requests := fun _ => false, exist_methods := some ["a"] }
      "b" ["a"] [] "m9").1 rfl (by decide)).2

/-- Claim C5: an inbound message whose source is not the parent window is
discarded by the guest listener with no state change and no effect: no
pending request completes, nothing is dispatched, the CapabilitySet is
untouched. -/
theorem c5_guest_sender_guard (cfg : Option String) (parent : Nat)
    (st : GuestState) (ev : GMsgEvent) (h : ev.source ≠ some parent) :
    guestStep cfg parent st ev = (st, []) := by
  unfold guestStep
  split
  · rfl
  · cases hs : ev.source with
    | none => rfl
    | some s =>
      have hne : s ≠ parent := by
        intro hsp
        exact h (by rw [hs, hsp])
      simp [hne]

/-- Witness for C5 at a concrete spoofed sender. -/
theorem c5_guest_sender_guard_witness :
    guestStep none 1 guestW
      { source := some 2,
        data := { baseMsg with
                  type := some Bridge.RESPONSE,
                  mid := some "m1", scope := some "x" } } = (guestW, []) :=
  c5_guest_sender_guard none 1 guestW
    { source := some 2,
      data := { baseMsg with
                type := some Bridge.RESPONSE,
                mid := some "m1", scope := some "x" } } (by decide)

/-- Claim C1 evaluated at its failing input: the guest listener's guard
negates diffScope, so a guest configured with scope 1 drops an inbound
RESPONSE whose scope is exactly 1 (state unchanged, no completion, the
pending request stays pending) and instead processes a RESPONSE whose
scope is 2, completing the pending request. The host listener has the
guard the right way round; the guest inverts it. -/
theorem c1_guest_scope_inverted :
    guestStep (some "1") 7 guestW
      { source := some 7,
        data := { baseMsg with
                  type := some Bridge.RESPONSE, mid := some "m1",
                  res := JsVal.num 3, scope := some "1" } } =
      (guestW, []) ∧
    (guestStep (some "1") 7 guestW
      { source := some 7,
        data := { baseMsg with
                  type := some Bridge.RESPONSE, mid := some "m1",
                  res := JsVal.num 3, scope := some "2" } }).2 =
      [GuestEffect.completed "m1" (Completion.resolved (JsVal.num 3))] :=
  ⟨rfl, rfl⟩

/-- Claim C2 evaluated at its failing input: when the deadline elapses
for pending request m1, the deferred result is rejected with the literal
string timeout, which differs from the Bridge.TIME_OUT error code; the
entry is removed and a late RESPONSE for m1 is then silently ignored. -/
theorem c2_timeout_literal :
    (timeoutFire guestW "m1").2 =
      [GuestEffect.completed "m1" (Completion.rejected "timeout")] ∧
    "timeout" ≠ Bridge.TIME_OUT ∧
    (timeoutFire guestW "m1").1.requests "m1" = false ∧
    (doneStep (timeoutFire guestW "m1").1 "m1" (JsVal.num 9) none).2 = [] :=
  ⟨rfl, by decide, rfl, rfl⟩

/-- Claim C7 counterexample: the host listener checks the scope before it
touches the frames table, so a first message with a mismatched scope from
origin o leaves the sender unregistered — the negation of the claim that
the upsert happens before the scope check and that any first message
makes the peer broadcast-eligible. -/
theorem c7_counterexample :
    ¬ (((hostStep (some "1")
          { frames := [], methods := fun _ => none }
          { source := some 3, origin := "o",
            data := { baseMsg with
                      scope := some "2" } }).1.frames.any
        (fun p => p.1 = "o")) = true) := by
  decide

/-- Claim C7 amended: the host discards a scope-mismatched message with
no side effect at all (no upsert); for a scope-matching message with a
non-null source and a truthy origin it upserts the sender's frame keyed
by origin, whatever the message type, before any dispatch. -/
theorem c7_scope_check_before_upsert (cfg : Option String)
    (st : HostState) (ev : MsgEvent) (f : Nat) :
    (diffScope cfg ev.data.scope = true → hostStep cfg st ev = (st, [])) ∧
    (diffScope cfg ev.data.scope = false → ev.source = some f →
      ev.origin ≠ "" →
      (hostStep cfg st ev).1.frames = upsert st.frames ev.origin f) := by
  constructor
  · intro hd
    simp [hostStep, hd]
  · intro hd hs ho
    unfold hostStep
    rw [hd, hs]
    simp only [Bool.false_eq_true, if_false]
    simp only [ho, if_false]
    by_cases ht : ev.data.type = some Bridge.CALL_METHOD
    · by_cases hm : truthyStr ev.data.mid
      · simp [ht, hm]
      · simp [ht, hm]
    · simp [ht]

/-- Witness for C7 amended: a scope-mismatched message is a complete
no-op, and a scope-matching EVENT-typed message registers its sender. -/
theorem c7_scope_check_before_upsert_witness :
    hostStep (some "1") hostW
      { source := some 3, origin := "o",
        data := { baseMsg with
                  scope := some "2" } } = (hostW, []) ∧
    (hostStep (some "1") hostW
      { source := some 3, origin := "o",
        data := { baseMsg with
                  type := some Bridge.EVENT,
                  scope := some "1" } }).1.frames =
      upsert hostW.frames "o" 3 :=
  ⟨(c7_scope_check_before_upsert (some "1") hostW
      { source := some 3, origin := "o",
        data := { baseMsg with
                  scope := some "2" } } 3).1 (by decide),
   (c7_scope_check_before_upsert (some "1") hostW
      { source := some 3, origin := "o",
        data := { baseMsg with
                  type := some Bridge.EVENT,
                  scope := some "1" } } 3).2 (by decide) rfl (by decide)⟩

/-- Claim C10: a CALL_METHOD message whose correlation id is absent or
falsy produces no RESPONSE at all, even when a handler for the named
method is registered. -/
theorem c10_falsy_mid_ignored (cfg : Option String) (st : HostState)
    (ev : MsgEvent) (htype : ev.data.type = some Bridge.CALL_METHOD)
    (hmid : truthyStr ev.data.mid = false) :
    (hostStep cfg st ev).2 = [] := by
  unfold hostStep
  split
  · rfl
  · cases hs : ev.source with
    | none => rfl
    | some f =>
      by_cases ho : ev.origin = ""
      · simp [ho]
      · simp [ho, htype, hmid]

/-- Witness for C10: the add handler is registered, the call names add,
but the message has no mid, so nothing is sent back. -/
theorem c10_falsy_mid_ignored_witness :
    (hostStep none hostW
      { source := some 3, origin := "o",
        data := { baseMsg with
                  type := some Bridge.CALL_METHOD,
                  method := some "add" } }).2 = [] :=
  c10_falsy_mid_ignored none hostW
    { source := some 3, origin := "o",
      data := { baseMsg with
                type := some Bridge.CALL_METHOD,
                method := some "add" } } rfl rfl

/-- Claim C3: a scope-matching CALL_METHOD message with a valid source,
origin and truthy mid makes the host send exactly one RESPONSE, to the
originating frame at its origin, carrying the same correlation id; with
no handler the response carries errorCode NO_METHOD, with a handler that
throws or rejects it carries only CALL_METHOD_FAILED and no result, and
with a handler that succeeds it carries the resolved value and no
errorCode. -/
theorem c3_host_call_response (cfg : Option String) (st : HostState)
    (ev : MsgEvent) (f : Nat)
    (hscope : diffScope cfg ev.data.scope = false)
    (hsrc : ev.source = some f) (horg : ev.origin ≠ "")
    (htype : ev.data.type = some Bridge.CALL_METHOD)
    (hmid : truthyStr ev.data.mid = true) :
    (hostStep cfg st ev).2 =
      [(f, ev.origin,
        callResponse cfg ev.data.mid
          (st.methods (ev.data.method.getD "undefined"))
          (ev.data.args.getD []))] ∧
    (∀ fn args,
      (callResponse cfg ev.data.mid fn args).type = some Bridge.RESPONSE ∧
      (callResponse cfg ev.data.mid fn args).mid = ev.data.mid) ∧
    (∀ args,
      (callResponse cfg ev.data.mid none args).err = some Bridge.NO_METHOD ∧
      (callResponse cfg ev.data.mid none args).res = JsVal.undef) ∧
    (∀ (h : Handler) (args : List JsVal) (v : JsVal),
      h args = HRes.ret v ∨ h args = HRes.thenRet v →
      (callResponse cfg ev.data.mid (some h) args).err = none ∧
      (callResponse cfg ev.data.mid (some h) args).res = v) ∧
    (∀ (h : Handler) (args : List JsVal) (e : JsVal),
      h args = HRes.thrown e ∨ h args = HRes.thenErr e →
      (callResponse cfg ev.data.mid (some h) args).err =
        some Bridge.CALL_METHOD_FAILED ∧
      (callResponse cfg ev.data.mid (some h) args).res = JsVal.undef) := by
  refine ⟨?_, ?_, ?_, ?_, ?_⟩
  · unfold hostStep
    rw [hscope, hsrc]
    simp only [Bool.false_eq_true, if_false]
    simp [horg, htype, hmid]
  · intro fn args
    cases hc : onCall fn args with
    | ok p => simp [callResponse, hc]
    | error e => simp [callResponse, hc]
  · intro args
    simp [callResponse, onCall]
  · intro h args v hv
    cases hv with
    | inl h1 => simp [callResponse, onCall, h1]
    | inr h1 => simp [callResponse, onCall, h1]
  · intro h args e he
    cases he with
    | inl h1 => simp [callResponse, onCall, h1]
    | inr h1 => simp [callResponse, onCall, h1]

/-- Witness for C3: calling the registered add method from frame 3 at
origin o yields exactly one RESPONSE to that frame with the same mid. -/
theorem c3_host_call_response_witness :
    (hostStep none hostW
      { source := some 3, origin := "o",
        data := { baseMsg with
                  type := some Bridge.CALL_METHOD,
                  mid := some "m1", method := some "add",
                  args := some [] } }).2 =
      [(3, "o",
        callResponse none (some "m1") (hostW.methods "add") [])] :=
  (c3_host_call_response none hostW
    { source := some 3, origin := "o",
      data := { baseMsg with
                type := some Bridge.CALL_METHOD,
                mid := some "m1", method := some "add",
                args := some [] } } 3 rfl rfl (by decide) rfl rfl).1

/-- The callback table used for the C9 counterexample: listener 0 adds
listener 1 to the set during dispatch. -/
def c9eff : Nat → LAct := fun j => if j = 0 then LAct.addL 1 else LAct.nop

/-- Claim C9 counterexample: with listener 0 registered at dispatch start
and listener 0 adding listener 1 during dispatch, the live Set iteration
of trigger also invokes listener 1 in the same dispatch — the negation of
the claim that additions during dispatch take effect only for subsequent
dispatches. -/
theorem c9_counterexample :
    forEachLive c9eff 5 [] [0] ≠ [0] ∧
    forEachLive c9eff 5 [] [0] = [0, 1] := by
  decide

/-- Helper for C9: when no invoked listener mutates the set, the live
iteration visits exactly the starting set in order. -/
theorem forEachLive_nop (eff : Nat → LAct)
    (hnop : ∀ j, eff j = LAct.nop) :
    ∀ (todo : List Nat) (fuel : Nat) (past : List Nat),
      todo.length < fuel → forEachLive eff fuel past todo = todo := by
  intro todo
  induction todo with
  | nil =>
    intro fuel past _
    cases fuel with
    | zero => rfl
    | succ n => rfl
  | cons j rest ih =>
    intro fuel past hf
    cases fuel with
    | zero => exact absurd hf (by simp)
    | succ n =>
      have hr : rest.length < n := by
        simpa [List.length_cons, Nat.succ_lt_succ_iff] using hf
      simp only [forEachLive, hnop j]
      rw [ih n (past ++ [j]) hr]

/-- Claim C9 amended: every listener registered for the event name at the
moment dispatch begins is invoked with the message's args in registration
order, provided no listener mutates the set during that dispatch;
per the live Set iteration of the code, a listener added during dispatch
is also invoked in the same dispatch and a removal takes effect
immediately, affecting the dispatch in progress. -/
theorem c9_dispatch_order (eff : Nat → LAct) (fuel : Nat)
    (listeners : List Nat) (args : List JsVal)
    (hnop : ∀ j, eff j = LAct.nop) (hfuel : listeners.length < fuel) :
    triggerCalls eff fuel listeners args =
      listeners.map (fun j => (j, args)) := by
  unfold triggerCalls
  rw [forEachLive_nop eff hnop listeners fuel [] hfuel]

/-- Witness for C9 amended at two concrete non-mutating listeners. -/
theorem c9_dispatch_order_witness :
    triggerCalls (fun _ => LAct.nop) 3 [5, 7] [JsVal.num 1] =
      [5, 7].map (fun j => (j, [JsVal.num 1])) :=
  c9_dispatch_order (fun _ => LAct.nop) 3 [5, 7] [JsVal.num 1]
    (fun _ => rfl) (by decide)

/-- Helper: done is a no-op when the correlation id has no pending entry. -/
theorem doneStep_not_pending (st : GuestState) (mid : String)
    (res : JsVal) (err : Option String) (h : st.requests mid = false) :
    doneStep st mid res err = (st, []) := by
  simp [doneStep, h]

/-- Helper: a completion attempt whose id has no pending entry changes
nothing and emits nothing. -/
theorem applyAttempt_not_pending (st : GuestState) (a : Attempt)
    (h : st.requests (attemptMid a) = false) :
    applyAttempt st a = (st, []) := by
  cases a with
  | response mid res err => exact doneStep_not_pending st mid res err h
  | timeout mid =>
    exact doneStep_not_pending st mid JsVal.undef (some "timeout") h

/-- Helper: a completion attempt whose id is pending consumes the entry
and emits exactly its outcome. -/
theorem applyAttempt_pending (st : GuestState) (a : Attempt)
    (h : st.requests (attemptMid a) = true) :
    (applyAttempt st a).1.requests (attemptMid a) = false ∧
    (applyAttempt st a).2 =
      [GuestEffect.completed (attemptMid a) (outcomeOf a)] := by
  cases a with
  | response mid res err =>
    simp only [applyAttempt, attemptMid] at h ⊢
    simp [doneStep, h, outcomeOf]
  | timeout mid =>
    simp only [applyAttempt, attemptMid] at h ⊢
    simp [timeoutFire, doneStep, h, outcomeOf, truthyStr]

/-- Helper: an attempt for one id leaves every other id's entry alone. -/
theorem applyAttempt_requests_other (st : GuestState) (a : Attempt)
    (m : String) (hm : attemptMid a ≠ m) :
    (applyAttempt st a).1.requests m = st.requests m := by
  have hms : m ≠ attemptMid a := Ne.symm hm
  cases a with
  | response mid res err =>
    simp only [attemptMid] at hms
    by_cases h : st.requests mid = true
    · simp [applyAttempt, doneStep, h, hms]
    · simp [applyAttempt, doneStep, h]
  | timeout mid =>
    simp only [attemptMid] at hms
    by_cases h : st.requests mid = true
    · simp [applyAttempt, timeoutFire, doneStep, h, hms]
    · simp [applyAttempt, timeoutFire, doneStep, h]

/-- Helper: an attempt for another id contributes no completion for m. -/
theorem completionsFor_other (m : String) (st : GuestState) (a : Attempt)
    (hm : attemptMid a ≠ m) :
    completionsFor m (applyAttempt st a).2 = [] := by
  by_cases h : st.requests (attemptMid a) = true
  · rw [(applyAttempt_pending st a h).2]
    simp [completionsFor, hm]
  · rw [applyAttempt_not_pending st a (Bool.not_eq_true _ ▸ h)]
    rfl

/-- Helper: once an id has no pending entry, no later attempt sequence
ever produces a completion for it or revives it. -/
theorem runAttempts_no_pending (mid : String) :
    ∀ (attempts : List Attempt) (st : GuestState),
      st.requests mid = false →
      completionsFor mid (runAttempts st attempts).2 = [] ∧
      (runAttempts st attempts).1.requests mid = false := by
  intro attempts
  induction attempts with
  | nil => intro st h; exact ⟨rfl, h⟩
  | cons a rest ih =>
    intro st h
    by_cases ha : attemptMid a = mid
    · have h0 : st.requests (attemptMid a) = false := by rw [ha]; exact h
      have hp := applyAttempt_not_pending st a h0
      simp only [runAttempts, hp]
      exact ih st h
    · have h1 : (applyAttempt st a).1.requests mid = st.requests mid :=
        applyAttempt_requests_other st a mid ha
      have h2 := completionsFor_other mid st a ha
      have h3 := ih (applyAttempt st a).1 (h1 ▸ h)
      simp only [runAttempts]
      constructor
      · simp only [completionsFor, List.filter_append] at h2 h3 ⊢
        rw [h2, h3.1]
        rfl
      · exact h3.2

/-- Claim C6: a pending request is consumed by exactly the first attempt
(matching RESPONSE or timeout) that targets its correlation id — that
attempt emits the single completion, with its own outcome, and every
later attempt for the same id is a no-op; the entry stays pending
exactly when no attempt targets it, so a request is never completed
twice nor both resolved and rejected. -/
theorem c6_pending_request_once (st : GuestState) (mid : String)
    (attempts : List Attempt) (h : st.requests mid = true) :
    completionsFor mid (runAttempts st attempts).2 =
      (match attempts.find? (fun a => attemptMid a = mid) with
       | none => []
       | some a => [GuestEffect.completed mid (outcomeOf a)]) ∧
    (runAttempts st attempts).1.requests mid =
      (attempts.find? (fun a => attemptMid a = mid)).isNone := by
  induction attempts generalizing st with
  | nil => exact ⟨rfl, h⟩
  | cons a rest ih =>
    by_cases ha : attemptMid a = mid
    · have hpred : (fun a => decide (attemptMid a = mid)) a = true := by
        simp [ha]
      have hfind := List.find?_cons_of_pos (p := fun a =>
        decide (attemptMid a = mid)) rest hpred
      have hpend : st.requests (attemptMid a) = true := by rw [ha]; exact h
      obtain ⟨h1, h2⟩ := applyAttempt_pending st a hpend
      have hrest := runAttempts_no_pending mid rest
        (applyAttempt st a).1 (by rw [← ha]; exact h1)
      simp only [runAttempts, hfind]
      constructor
      · simp only [completionsFor, List.filter_append] at hrest ⊢
        rw [hrest.1, h2]
        simp [completionsFor, ha]
      · exact hrest.2
    · have hpred : ¬ ((fun a => decide (attemptMid a = mid)) a = true) := by
        simp [ha]
      have hfind := List.find?_cons_of_neg (p := fun a =>
        decide (attemptMid a = mid)) rest hpred
      have h1 : (applyAttempt st a).1.requests mid = st.requests mid :=
        applyAttempt_requests_other st a mid ha
      have h2 := completionsFor_other mid st a ha
      have h3 := ih (applyAttempt st a).1 (h1 ▸ h)
      simp only [runAttempts, hfind]
      constructor
      · simp only [completionsFor, List.filter_append] at h2 h3 ⊢
        rw [h2, h3.1]
        simp
      · exact h3.2

/-- Witness for C6: with m1 pending, a matching RESPONSE followed by the
late timeout yields exactly one completion, the response's, and leaves
the entry consumed. -/
theorem c6_pending_request_once_witness :
    guestW.requests "m1" = true ∧
    completionsFor "m1" (runAttempts guestW
        [Attempt.response "m1" (JsVal.num 3) none,
         Attempt.timeout "m1"]).2 =
      [GuestEffect.completed "m1" (Completion.resolved (JsVal.num 3))] ∧
    (runAttempts guestW
        [Attempt.response "m1" (JsVal.num 3) none,
         Attempt.timeout "m1"]).1.requests "m1" = false := by
  have h := c6_pending_request_once guestW "m1"
    [Attempt.response "m1" (JsVal.num 3) none, Attempt.timeout "m1"]
    (by decide)
  refine ⟨by decide, ?_, ?_⟩
  · rw [h.1]
    decide
  · rw [h.2]
    decide
